import Mathlib

/-!
Verification development for the NFC_Tag_Front attendance UI
(`src/app/page.tsx`, the synthetic/local variant, and `src/app/tmp.tsx`,
the remote variant, plus the pass-through API route handler appended to
`page.tsx`).

Calendar model: a calendar date is a `Nat` day number, counting days from
0000-03-01 of the proleptic Gregorian calendar (day 0 = 0000-03-01, which
was a Wednesday).  An instant (a JS `Date`, which carries a time of day)
is a day number together with milliseconds since that day's midnight.
The date-fns helpers used by the code (`eachDayOfInterval`, `isWeekend`,
`isBefore`, `startOfWeek`, `endOfWeek`, `startOfMonth`, `endOfMonth`,
`subMonths`) are embedded over this representation.
-/

namespace NFCTag

/-- Days from 0000-03-01 to civil date `(y, m, d)` (proleptic Gregorian,
`1 ≤ m ≤ 12`).  This is the standard civil-from-days era computation;
for example `daysFromCivil 1970 1 1 = 719468`. -/
def daysFromCivil (y m d : Nat) : Nat :=
  let y' := if m ≤ 2 then y - 1 else y
  let era := y' / 400
  let yoe := y' % 400
  let mp  := (m + 9) % 12
  let doy := (153 * mp + 2) / 5 + (d - 1)
  let doe := yoe * 365 + yoe / 4 - yoe / 100 + doy
  era * 146097 + doe

/-- Inverse direction: civil date `(y, m, d)` of a day number. -/
def civilFromDays (z : Nat) : Nat × Nat × Nat :=
  let era := z / 146097
  let doe := z % 146097
  let yoe := (doe - doe / 1460 + doe / 36524 - doe / 146096) / 365
  let y0  := yoe + era * 400
  let doy := doe - (365 * yoe + yoe / 4 - yoe / 100)
  let mp  := (5 * doy + 2) / 153
  let d   := doy - (153 * mp + 2) / 5 + 1
  let m   := if mp < 10 then mp + 3 else mp - 9
  (if m ≤ 2 then y0 + 1 else y0, m, d)

/-- Day of the week of a day number, with the JS `Date.getDay` convention:
0 = Sunday, 1 = Monday, …, 6 = Saturday.  Day 0 (0000-03-01) was a
Wednesday, hence the offset 3. -/
def dayOfWeekNum (d : Nat) : Nat := (d + 3) % 7

/-- date-fns `isWeekend`: Saturday or Sunday. -/
def isWeekendDay (d : Nat) : Bool := dayOfWeekNum d == 0 || dayOfWeekNum d == 6

/-- An instant (JS `Date`): a day number plus milliseconds since midnight. -/
structure Instant where
  day : Nat
  ms  : Nat
  deriving DecidableEq, Repr

/-- date-fns `isBefore` on instants (strict timestamp comparison). -/
def isBefore (a b : Instant) : Bool :=
  a.day < b.day || (a.day == b.day && a.ms < b.ms)

/-- Midnight of a day, as an instant (the time `eachDayOfInterval` gives
to each produced date). -/
def midnight (d : Nat) : Instant := ⟨d, 0⟩

/-- date-fns `eachDayOfInterval {start, end}` at day granularity: the
day numbers from `start.day` to `end.day` inclusive (each produced date
is normalized to midnight; the upper bound is inclusive because
midnight of `end.day` is ≤ the end instant). -/
def eachDayOfInterval (s e : Instant) : List Nat :=
  List.range' s.day (e.day + 1 - s.day)

/-- The weekday filter applied in both variants:
`eachDayOfInterval({start, end}).filter((day) => !isWeekend(day))`.
In `tmp.tsx` this is the `dateRangeArray` binding (lines 222-224); in
`page.tsx` it is the `weekDays` binding inside `fetchAttendanceData`
(lines 43-45). -/
def dateRangeArray (s e : Instant) : List Nat :=
  (eachDayOfInterval s e).filter (fun d => !isWeekendDay d)

/-! ## Synthetic/local variant (`page.tsx`) -/

/-- The `AttendanceStatus` type of `page.tsx`:
`"Present" | "Absent" | "Vacation" | "Late" | "OfficialLeave" | "Not Yet"`. -/
inductive AttendanceStatus where
  | Present | Absent | Vacation | Late | OfficialLeave | NotYet
  deriving DecidableEq, Repr

/-- The string each `AttendanceStatus` constructor stands for. -/
def AttendanceStatus.text : AttendanceStatus → String
  | .Present => "Present"
  | .Absent => "Absent"
  | .Vacation => "Vacation"
  | .Late => "Late"
  | .OfficialLeave => "OfficialLeave"
  | .NotYet => "Not Yet"

/-- JS array indexing `xs[index]` as the mock generator uses it.  Every
call site (`fetchAttendanceData` maps over `weekDays` with its own
indices) stays within bounds, so the fallback value is never reached
there. -/
def jsIndex (xs : List Nat) (index : Nat) : Nat := xs.getD index 0

/-- Result shape of `getStatus`:
`{ status: AttendanceStatus; checkInTime?: string; comment?: string }`. -/
structure StatusResult where
  status : AttendanceStatus
  checkInTime : Option String
  comment : Option String
  deriving DecidableEq, Repr

/-- Function `getStatus` from `page.tsx` (lines 57-79).  It closes over the
`weekDays` array and the `today` instant captured by
`fetchAttendanceData`; here they are explicit arguments.  The first
guard is `if (!isBefore(weekDays[index], today)) return { status: "Not Yet" }`;
each `weekDays` entry is a midnight instant.  The `switch (employeeId)`
with cases 1, 2, 3 and a default is embedded as the equivalent
equality chain. -/
def getStatus (weekDays : List Nat) (today : Instant) (employeeId index : Nat) :
    StatusResult :=
  if !isBefore (midnight (jsIndex weekDays index)) today then
    ⟨.NotYet, none, none⟩
  else if employeeId == 1 then
    if index % 10 == 0 then ⟨.Vacation, none, none⟩
    else ⟨.Present, some "09:40", none⟩
  else if employeeId == 2 then
    if index % 5 == 0 then ⟨.Late, some "10:15", none⟩
    else ⟨.Absent, none, none⟩
  else if employeeId == 3 then
    let statuses : List AttendanceStatus :=
      [.Present, .Absent, .Late, .Vacation, .OfficialLeave]
    let status := statuses.getD (index % 5) .Present
    if status = .Present then ⟨status, some "09:50", none⟩
    else if status = .Late then ⟨status, some "10:15", none⟩
    else ⟨status, none, none⟩
  else ⟨.NotYet, none, none⟩

/-- A per-day attendance cell of the mock data:
`{ date, status, checkInTime }` built at `page.tsx` line 85.  (A
`comment` slot is carried so the frame theorem can speak about it; the
builder never sets one, matching the destructuring at line 84 which
drops `comment`.) -/
structure MockRecord where
  date : Nat
  status : AttendanceStatus
  checkInTime : Option String
  comment : Option String
  deriving DecidableEq, Repr

/-- The `Employee` of `page.tsx` plus its `attendance` array as produced by
`fetchAttendanceData`.  `remainingVacationDays` is a JS number adjusted
in half-day steps, embedded as `ℚ`. -/
structure MockEmployee where
  id : Nat
  name : String
  remainingVacationDays : ℚ
  accumulatedFine : Nat
  attendance : List MockRecord
  deriving DecidableEq, Repr

/-- The hard-coded employee roster of `fetchAttendanceData` (lines 50-54),
before the `attendance` arrays are attached. -/
def mockEmployees : List (Nat × String × ℚ × Nat) :=
  [(1, "John Doe", 3, 50000), (2, "Jane Smith", 5, 30000), (3, "Bob Johnson", 1, 75000)]

/-- Function `fetchAttendanceData` of `page.tsx` (lines 43-88): enumerate the
weekdays of the interval, then give every employee one record per
weekday via `getStatus`.  `today` is the `new Date()` captured at
line 46. -/
def fetchAttendanceData (s e : Instant) (today : Instant) : List MockEmployee :=
  let weekDays := dateRangeArray s e
  mockEmployees.map (fun emp =>
    { id := emp.1, name := emp.2.1, remainingVacationDays := emp.2.2.1,
      accumulatedFine := emp.2.2.2,
      attendance := (List.range weekDays.length).map (fun index =>
        let r := getStatus weekDays today emp.1 index
        { date := jsIndex weekDays index, status := r.status,
          checkInTime := r.checkInTime, comment := none }) })

/-- The cell button's `disabled` flag (`page.tsx` line 289):
`disabled={a.status === "Not Yet"}`. -/
def cellDisabled (status : AttendanceStatus) : Bool := status == .NotYet

/-- The cell button's label (`page.tsx` lines 291-300): empty for
`"Not Yet"`, otherwise the status text with optional time/comment
suffixes. -/
def cellLabel (r : MockRecord) : String :=
  if r.status == .NotYet then ""
  else
    r.status.text
      ++ (match r.checkInTime with
          | some t => " (" ++ t ++ ")"
          | none => "")
      ++ (match r.status, r.comment with
          | .OfficialLeave, some c => " (" ++ c ++ ")"
          | _, _ => "")

/-! ## Range Selector (`handleViewModeChange`, identical in both files) -/

/-- The `ViewMode` token: `"day" | "week" | "month" | "all"`. -/
inductive ViewMode where
  | day | week | month | all
  deriving DecidableEq, Repr

/-- An inclusive `{ from, to }` date range at day granularity
(`from` and `to` are Lean keywords, hence the primes). -/
structure DateRange where
  from' : Nat
  to' : Nat
  deriving DecidableEq, Repr

/-- date-fns `startOfWeek` with no options: the most recent Sunday on or
before the date (the default `weekStartsOn` is 0; the code passes no
locale or options). -/
def startOfWeek (d : Nat) : Nat := d - dayOfWeekNum d

/-- date-fns `endOfWeek` with no options: the Saturday ending that week. -/
def endOfWeek (d : Nat) : Nat := startOfWeek d + 6

/-- Gregorian leap year. -/
def isLeapYear (y : Nat) : Bool := y % 4 == 0 && (y % 100 != 0 || y % 400 == 0)

/-- Length of month `m` of year `y`. -/
def daysInMonth (y m : Nat) : Nat :=
  if m == 2 then (if isLeapYear y then 29 else 28)
  else if m == 4 || m == 6 || m == 9 || m == 11 then 30
  else 31

/-- date-fns `startOfMonth`: day 1 of the date's month. -/
def startOfMonth (d : Nat) : Nat :=
  let c := civilFromDays d
  daysFromCivil c.1 c.2.1 1

/-- date-fns `endOfMonth`: the last day of the date's month. -/
def endOfMonth (d : Nat) : Nat :=
  let c := civilFromDays d
  daysFromCivil c.1 c.2.1 (daysInMonth c.1 c.2.1)

/-- date-fns `subMonths(d, 12)`: same month of the previous year, the
day-of-month clamped to that month's length (only February 29 ever
clamps over a 12-month step). -/
def subMonths12 (d : Nat) : Nat :=
  let c := civilFromDays d
  daysFromCivil (c.1 - 1) c.2.1 (min c.2.2 (daysInMonth (c.1 - 1) c.2.1))

/-- Function `handleViewModeChange` (`page.tsx` lines 112-137, `tmp.tsx` lines
103-128): the `{ from, to }` pair the switch computes from `mode` and
`today = new Date()`. -/
def handleViewModeChange : ViewMode → Nat → DateRange
  | .day, today => ⟨today, today⟩
  | .week, today => ⟨startOfWeek today, endOfWeek today⟩
  | .month, today => ⟨startOfMonth today, endOfMonth today⟩
  | .all, today => ⟨subMonths12 today, today⟩

/-- The Range Selector mapping exactly as the specification words it,
§4.1 read together with the §8 scenario "ViewMode=week, today =
Wednesday → DateRange = [Monday, Sunday of that week]": weeks run
Monday through Sunday.  `(dayOfWeekNum today + 6) % 7` is the number of
days since the last Monday. -/
def specViewRange : ViewMode → Nat → DateRange
  | .day, today => ⟨today, today⟩
  | .week, today =>
      let monday := today - (dayOfWeekNum today + 6) % 7
      ⟨monday, monday + 6⟩
  | .month, today =>
      let c := civilFromDays today
      ⟨daysFromCivil c.1 c.2.1 1, daysFromCivil c.1 c.2.1 (daysInMonth c.1 c.2.1)⟩
  | .all, today =>
      let c := civilFromDays today
      ⟨daysFromCivil (c.1 - 1) c.2.1 (min c.2.2 (daysInMonth (c.1 - 1) c.2.1)), today⟩

/-- The Range Selector mapping with the week case amended to the
date-fns default actually used by the code: weeks run Sunday through
Saturday (`dayOfWeekNum today` days since the last Sunday); the other
three cases are as the spec words them. -/
def specViewRangeSunday : ViewMode → Nat → DateRange
  | .week, today =>
      let sunday := today - dayOfWeekNum today
      ⟨sunday, sunday + 6⟩
  | mode, today => specViewRange mode today

/-! ## Local page state, edit commit and leave-day adjustment -/

/-- The `page.tsx` component state that `saveEdit` reads and writes. -/
structure PageState where
  attendanceData : List MockEmployee
  editEmployeeId : Option Nat
  editDate : Option Nat
  editStatus : AttendanceStatus
  deriving DecidableEq, Repr

/-- Function `saveEdit` of `page.tsx` (lines 147-165).  The JS guard
`if (editEmployeeId && editDate && editStatus)` needs all three truthy:
a non-null id other than 0 (0 is falsy), a non-null date (`Date`
objects are always truthy), and a status string (every
`AttendanceStatus` string is non-empty, hence truthy).  When it holds,
the matching employee's record for the edited date gets its `status`
replaced (`{ ...a, status: editStatus }`) and the session resets. -/
def saveEdit (st : PageState) : PageState :=
  match st.editEmployeeId, st.editDate with
  | some e, some d =>
    if e == 0 then st
    else
      { attendanceData := st.attendanceData.map (fun emp =>
          if emp.id == e then
            { emp with attendance := emp.attendance.map (fun a =>
                if a.date == d then { a with status := st.editStatus } else a) }
          else emp),
        editEmployeeId := none, editDate := none, editStatus := .Present }
  | _, _ => st

/-- Function `handleVacationDayChange` of `page.tsx` (lines 184-195): add
`change` to the matching employee's balance, clamped with
`Math.max(0, ·)`. -/
def handleVacationDayChange (data : List MockEmployee) (employeeId : Nat)
    (change : ℚ) : List MockEmployee :=
  data.map (fun emp =>
    if emp.id == employeeId then
      { emp with remainingVacationDays := max 0 (emp.remainingVacationDays + change) }
    else emp)

/-- The `-1` button's `disabled` flag (`page.tsx` line 275):
`disabled={employee.remainingVacationDays < 1}`. -/
def minusOneDisabled (e : MockEmployee) : Bool := e.remainingVacationDays < 1

/-- The `-0.5` button's `disabled` flag (`page.tsx` line 266):
`disabled={employee.remainingVacationDays < 0.5}`. -/
def minusHalfDisabled (e : MockEmployee) : Bool := e.remainingVacationDays < (1 / 2 : ℚ)

/-! ## Remote variant (`tmp.tsx`) -/

/-- The `AttendanceStatus` type of `tmp.tsx`:
`"PRESENT" | "ABSENT" | "VACATION" | "LATE" | "OFFICIAL_LEAVE" | "NOT_YET"`. -/
inductive RemoteStatus where
  | PRESENT | ABSENT | VACATION | LATE | OFFICIAL_LEAVE | NOT_YET
  deriving DecidableEq, Repr

/-- The string each `RemoteStatus` constructor stands for. -/
def RemoteStatus.text : RemoteStatus → String
  | .PRESENT => "PRESENT"
  | .ABSENT => "ABSENT"
  | .VACATION => "VACATION"
  | .LATE => "LATE"
  | .OFFICIAL_LEAVE => "OFFICIAL_LEAVE"
  | .NOT_YET => "NOT_YET"

/-- The `AttendanceRecord` of `tmp.tsx` (lines 37-42). -/
structure RemoteRecord where
  attendanceDate : String
  status : RemoteStatus
  time : Option String
  comment : Option String
  deriving DecidableEq, Repr

/-- Merging one singleton `{ e: rs }` by `Object.assign` into an accumulated
object: overwrite the slot if the key exists, otherwise add it. -/
def assignEntry (m : List (Nat × List RemoteRecord)) (e : Nat)
    (rs : List RemoteRecord) : List (Nat × List RemoteRecord) :=
  if m.any (fun p => p.1 == e) then
    m.map (fun p => if p.1 == e then (e, rs) else p)
  else m ++ [(e, rs)]

/-- Indexing the merged mapping by employee id. -/
def lookupRecords (m : List (Nat × List RemoteRecord)) (e : Nat) :
    Option (List RemoteRecord) :=
  (m.find? (fun p => p.1 == e)).map (fun p => p.2)

/-- Function `fetchAttendanceData` of `tmp.tsx` (lines 80-101).  One fetch per
employee; `fetch e = none` models a failed per-employee request (non-ok
response or transport error, which makes that promise reject).  The
results go through `Promise.all`: only if every promise fulfils is
`Object.assign({}, ...results)` computed and stored; if any rejects,
`Promise.all` rejects, the `catch` logs the error, and `attendanceData`
keeps its previous value `prev`. -/
def fetchAttendanceDataRemote (employees : List Nat)
    (fetch : Nat → Option (List RemoteRecord))
    (prev : List (Nat × List RemoteRecord)) : List (Nat × List RemoteRecord) :=
  if employees.all (fun e => (fetch e).isSome) then
    employees.foldl (fun acc e => assignEntry acc e ((fetch e).getD [])) []
  else prev

/-! ## JSON serialization (`JSON.stringify` of the edit body) -/

/-- The `JSON.stringify` escaping of one character inside a string literal. -/
def jsonEscapeChar (c : Char) : String :=
  if c = '"' then "\\\""
  else if c = '\\' then "\\\\"
  else if c = '\x08' then "\\b"
  else if c = '\x09' then "\\t"
  else if c = '\x0a' then "\\n"
  else if c = '\x0c' then "\\f"
  else if c = '\x0d' then "\\r"
  else if c.toNat < 32 then
    "\\u00" ++ String.mk [Nat.digitChar (c.toNat / 16), Nat.digitChar (c.toNat % 16)]
  else String.mk [c]

/-- The `JSON.stringify` rendering of a string value. -/
def jsonStr (s : String) : String :=
  "\"" ++ String.join (s.toList.map jsonEscapeChar) ++ "\""

/-- The `JSON.stringify(requestBody)` output for the object literal built in
`saveEdit` of `tmp.tsx` (lines 141-147): keys in insertion order
`userId`, `attendanceDate`, `status`, `comment`, `time`; `userId` is a
number, the rest are strings. -/
def serializeEditBody (userId : Nat) (date : String) (status : RemoteStatus)
    (comment time : String) : String :=
  "\x7b\"userId\":" ++ toString userId
    ++ ",\"attendanceDate\":" ++ jsonStr date
    ++ ",\"status\":" ++ jsonStr status.text
    ++ ",\"comment\":" ++ jsonStr comment
    ++ ",\"time\":" ++ jsonStr time ++ "\x7d"

/-- The edit-session slots of `tmp.tsx` that `saveEdit` reads. -/
structure RemoteEditState where
  editEmployeeId : Option Nat
  editDate : Option String
  editStatus : RemoteStatus
  editTime : String
  editComment : String
  deriving DecidableEq, Repr

/-- An HTTP request the client issues. -/
structure HttpRequest where
  method : String
  url : String
  body : String
  deriving DecidableEq, Repr

/-- What one call of the remote `saveEdit` did: the requests it issued,
the edit-session state it left, whether it re-ran `fetchAttendanceData`
and whether it raised the failure `alert`. -/
structure SaveOutcome where
  requests : List HttpRequest
  newState : RemoteEditState
  reloaded : Bool
  alerted : Bool
  deriving DecidableEq, Repr

/-- Function `saveEdit` of `tmp.tsx` (lines 138-180).  The guard
`if (editEmployeeId && editDate && editStatus)` needs a non-null id
other than 0, a non-null non-empty date string, and a status string
(always non-empty).  It then PUTs the serialized body to
`/api/attendance`; `ok` is `response.ok` of that single request.  On
success it re-fetches the attendance data and resets the session; on
failure the `catch` alerts and leaves all state as it was. -/
def saveEditRemote (st : RemoteEditState) (ok : Bool) : SaveOutcome :=
  match st.editEmployeeId, st.editDate with
  | some e, some d =>
    if e == 0 || d == "" then ⟨[], st, false, false⟩
    else
      let req : HttpRequest :=
        ⟨"PUT", "/api/attendance",
         serializeEditBody e d st.editStatus st.editComment st.editTime⟩
      if ok then
        ⟨[req], ⟨none, none, .PRESENT, "", ""⟩, true, false⟩
      else
        ⟨[req], st, false, true⟩
  | _, _ => ⟨[], st, false, false⟩

/-! ## The Upstream Proxy (`pages/api` handler appended to `page.tsx`,
lines 395-426) -/

/-- Does the ASCII character list start with the given needle? -/
def listStartsWith : List Char → List Char → Bool
  | [], _ => true
  | _ :: _, [] => false
  | a :: as, b :: bs => a == b && listStartsWith as bs

/-- JS `hay.indexOf(needle) !== -1` over character lists. -/
def listContainsSub : List Char → List Char → Bool
  | [], needle => needle.isEmpty
  | c :: t, needle => listStartsWith needle (c :: t) || listContainsSub t needle

/-- The handler's check
`contentType && contentType.indexOf("application/json") !== -1`
(a `null` header fails the first conjunct). -/
def contentTypeIsJson (ct : Option String) : Bool :=
  match ct with
  | none => false
  | some s => listContainsSub s.toList ("application/json".toList)

/-- What the upstream `fetch` does on one call: reject (network error),
or respond with a status, an optional `content-type` header and a body. -/
inductive UpstreamBehavior where
  | throws
  | responds (status : Nat) (contentType : Option String) (body : String)
  deriving DecidableEq, Repr

/-- The response the API route sends back: HTTP status, the `Allow`
header if one was set, and the body text. -/
structure ApiResponse where
  status : Nat
  allowHeader : Option (List String)
  body : String
  deriving DecidableEq, Repr

/-- Body of `res.status(500).json({ message: "Failed to update
attendance", error: error })`: a JS `Error` carries no enumerable
properties, so `JSON.stringify` renders it as an empty object whatever
the failure was — the error body has a fixed shape. -/
def jsonErrorBody : String :=
  "\x7b\"message\":\"Failed to update attendance\",\"error\":\x7b\x7d\x7d"

/-- The API route `handler` (`page.tsx` lines 395-426), as a function of
the request method, the request body (re-serialized by
`JSON.stringify(req.body)`), the `API_BASE_URL` environment value and
the upstream behavior.  Besides the response it returns the list of
upstream requests issued.  A non-PUT method gets
`Allow: ["PUT"]` and `405 Method <m> Not Allowed` without touching the
upstream.  For PUT, a thrown fetch or a non-ok (outside 200-299)
upstream status lands in the `catch`, producing the fixed 500 body; an
ok response is relayed with status 200, as its JSON body when the
`content-type` contains `application/json`, otherwise wrapped as
`{ message: text }`. -/
def handler (method : String) (reqBody : String) (apiBaseUrl : String)
    (up : UpstreamBehavior) : ApiResponse × List HttpRequest :=
  if method == "PUT" then
    let upReq : HttpRequest := ⟨"PUT", apiBaseUrl ++ "/attendance", reqBody⟩
    match up with
    | .throws => (⟨500, none, jsonErrorBody⟩, [upReq])
    | .responds status ct body =>
      if 200 ≤ status && status ≤ 299 then
        if contentTypeIsJson ct then (⟨200, none, body⟩, [upReq])
        else (⟨200, none, "\x7b\"message\":" ++ jsonStr body ++ "\x7d"⟩, [upReq])
      else (⟨500, none, jsonErrorBody⟩, [upReq])
  else
    (⟨405, some ["PUT"], "Method " ++ method ++ " Not Allowed"⟩, [])

/-! ## Theorems -/

/-- Claim C1, counterexample.  The claim says every workday on or after
today (as a calendar date) yields status `"Not Yet"`.  In the week
2024-03-03..09 with generation at 09:00 on Wednesday 2024-03-06, the
workday at index 2 *is* today — on (not before) today's date — yet
`getStatus` returns `Present 09:40` for employee 1: the code's
`isBefore` compares full timestamps, so today's own midnight column
counts as past once the clock is past midnight. -/
theorem getStatus_on_today_counterexample :
    (⟨daysFromCivil 2024 3 6, 32400000⟩ : Instant).day ≤
      jsIndex (dateRangeArray (midnight (daysFromCivil 2024 3 3))
        (midnight (daysFromCivil 2024 3 9))) 2 ∧
    getStatus
      (dateRangeArray (midnight (daysFromCivil 2024 3 3))
        (midnight (daysFromCivil 2024 3 9)))
      ⟨daysFromCivil 2024 3 6, 32400000⟩ 1 2 =
      ⟨.Present, some "09:40", none⟩ ∧
    (getStatus
      (dateRangeArray (midnight (daysFromCivil 2024 3 3))
        (midnight (daysFromCivil 2024 3 9)))
      ⟨daysFromCivil 2024 3 6, 32400000⟩ 1 2).status ≠ .NotYet := by
  decide

/-- Claim C1, amended: if the workday at the index is strictly after
today's calendar date — or equal to it when generation happens exactly
at midnight — then `getStatus` returns status `"Not Yet"` with no
check-in time and no comment, for every employee id and pattern. -/
theorem getStatus_future_notYet (weekDays : List Nat) (today : Instant)
    (employeeId index : Nat)
    (h : today.day < jsIndex weekDays index ∨
         (today.day = jsIndex weekDays index ∧ today.ms = 0)) :
    getStatus weekDays today employeeId index = ⟨.NotYet, none, none⟩ := by
  have hb : isBefore (midnight (jsIndex weekDays index)) today = false := by
    rcases h with h | ⟨h1, h2⟩
    · simp [isBefore, midnight, Nat.lt_asymm h, ne_of_gt h]
    · simp [isBefore, midnight, h1, h2]
  unfold getStatus
  simp only [hb]
  rfl

/-- Witness for `getStatus_future_notYet`: on Tuesday 2024-03-05 just
after midnight, the Wednesday column (index 2) of that week is still
`"Not Yet"`. -/
theorem getStatus_future_notYet_witness :
    getStatus
      (dateRangeArray (midnight (daysFromCivil 2024 3 3))
        (midnight (daysFromCivil 2024 3 9)))
      ⟨daysFromCivil 2024 3 5, 500⟩ 1 2 = ⟨.NotYet, none, none⟩ :=
  getStatus_future_notYet
    (dateRangeArray (midnight (daysFromCivil 2024 3 3))
      (midnight (daysFromCivil 2024 3 9)))
    ⟨daysFromCivil 2024 3 5, 500⟩ 1 2 (by decide)

/-- Claim C10: for a workday strictly before today, an employee id outside
{1, 2, 3} falls through the switch to the default `"Not Yet"` result,
with no check-in time and no comment; such a cell renders disabled and
with an empty label. -/
theorem getStatus_unknown_employee (weekDays : List Nat) (today : Instant)
    (employeeId index : Nat)
    (h1 : employeeId ≠ 1) (h2 : employeeId ≠ 2) (h3 : employeeId ≠ 3)
    (hpast : jsIndex weekDays index < today.day) :
    getStatus weekDays today employeeId index = ⟨.NotYet, none, none⟩ ∧
    cellDisabled AttendanceStatus.NotYet = true ∧
    cellLabel ⟨jsIndex weekDays index, .NotYet, none, none⟩ = "" := by
  refine ⟨?_, rfl, rfl⟩
  have hb : isBefore (midnight (jsIndex weekDays index)) today = true := by
    simp [isBefore, midnight, hpast]
  unfold getStatus
  simp only [hb]
  simp [h1, h2, h3]

/-- Witness for `getStatus_unknown_employee` at employee id 7 and the
Monday column of a past week. -/
theorem getStatus_unknown_employee_witness :
    getStatus
      (dateRangeArray (midnight (daysFromCivil 2024 3 3))
        (midnight (daysFromCivil 2024 3 9)))
      ⟨daysFromCivil 2024 4 1, 0⟩ 7 0 = ⟨.NotYet, none, none⟩ ∧
    cellDisabled AttendanceStatus.NotYet = true ∧
    cellLabel ⟨jsIndex (dateRangeArray (midnight (daysFromCivil 2024 3 3))
        (midnight (daysFromCivil 2024 3 9))) 0, .NotYet, none, none⟩ = "" :=
  getStatus_unknown_employee
    (dateRangeArray (midnight (daysFromCivil 2024 3 3))
      (midnight (daysFromCivil 2024 3 9)))
    ⟨daysFromCivil 2024 4 1, 0⟩ 7 0 (by decide) (by decide) (by decide) (by decide)

/-- Claim C3, counterexample.  2024-03-06 is a Wednesday
(`dayOfWeekNum = 3`); the code's week range for it is
[Sunday 2024-03-03, Saturday 2024-03-09] (date-fns default week start),
not the [Monday 2024-03-04, Sunday 2024-03-10] the spec's scenario
demands. -/
theorem handleViewModeChange_week_counterexample :
    dayOfWeekNum (daysFromCivil 2024 3 6) = 3 ∧
    handleViewModeChange .week (daysFromCivil 2024 3 6) =
      ⟨daysFromCivil 2024 3 3, daysFromCivil 2024 3 9⟩ ∧
    specViewRange .week (daysFromCivil 2024 3 6) =
      ⟨daysFromCivil 2024 3 4, daysFromCivil 2024 3 10⟩ ∧
    handleViewModeChange .week (daysFromCivil 2024 3 6) ≠
      specViewRange .week (daysFromCivil 2024 3 6) := by
  decide

/-- Claim C3, amended: `handleViewModeChange` realizes the spec mapping
with the week case read as Sunday-through-Saturday (the date-fns
default the code uses): `day → [today, today]`, `week → [Sunday on or
before today, that Sunday + 6]` (a 7-day interval containing today and
starting on a Sunday), `month → [first, last day of today's month]`,
`all → [today minus 12 months, today]`. -/
theorem handleViewModeChange_spec (mode : ViewMode) (today : Nat)
    (h : 6 ≤ today) :
    handleViewModeChange mode today = specViewRangeSunday mode today ∧
    dayOfWeekNum (handleViewModeChange .week today).from' = 0 ∧
    (handleViewModeChange .week today).to' =
      (handleViewModeChange .week today).from' + 6 ∧
    (handleViewModeChange .week today).from' ≤ today ∧
    today ≤ (handleViewModeChange .week today).to' ∧
    handleViewModeChange .day today = ⟨today, today⟩ ∧
    (handleViewModeChange .all today).to' = today := by
  refine ⟨by cases mode <;> rfl, ?_, rfl, ?_, ?_, rfl, rfl⟩ <;>
    · dsimp only [handleViewModeChange, startOfWeek, endOfWeek, dayOfWeekNum]
      omega

/-- Witness for `handleViewModeChange_spec` on Wednesday 2024-03-06. -/
theorem handleViewModeChange_spec_witness :
    handleViewModeChange .week (daysFromCivil 2024 3 6) =
      specViewRangeSunday .week (daysFromCivil 2024 3 6) :=
  (handleViewModeChange_spec .week (daysFromCivil 2024 3 6) (by decide)).1

/-- Claim C8: any request whose method is not PUT is answered with
status 405, an `Allow: PUT` header and a `Method <m> Not Allowed` body,
and no upstream request is issued, whatever the upstream would do. -/
theorem handler_non_put (method reqBody apiBaseUrl : String)
    (up : UpstreamBehavior) (h : method ≠ "PUT") :
    handler method reqBody apiBaseUrl up =
      (⟨405, some ["PUT"], "Method " ++ method ++ " Not Allowed"⟩, []) := by
  simp [handler, h]

/-- Witness for `handler_non_put`: a GET request. -/
theorem handler_non_put_witness :
    handler "GET" "body" "http://upstream" .throws =
      (⟨405, some ["PUT"], "Method GET Not Allowed"⟩, []) :=
  handler_non_put "GET" "body" "http://upstream" .throws (by decide)

/-- Any run of 7 consecutive days contains exactly 5 non-weekend days:
the 7 day numbers cover each weekday residue once, and exactly two of
the residues are Saturday or Sunday. -/
theorem weekCount (a : Nat) :
    ((List.range' a 7).filter (fun d => !isWeekendDay d)).length = 5 := by
  obtain ⟨q, r, hr7, rfl⟩ : ∃ q r, r < 7 ∧ a = 7 * q + r :=
    ⟨a / 7, a % 7, Nat.mod_lt _ (by norm_num), by omega⟩
  have hr : List.range' (7 * q + r) 7 =
      [7*q+r, 7*q+r+1, 7*q+r+2, 7*q+r+3, 7*q+r+4, 7*q+r+5, 7*q+r+6] := rfl
  rw [hr]
  interval_cases r <;>
    simp [isWeekendDay, dayOfWeekNum, Nat.add_assoc, Nat.mul_add_mod, List.filter_cons]

/-- Claim C4: for an inclusive range with `from ≤ to`, the weekday list is
strictly ascending, contains exactly the non-weekend days of the
interval (no other day is removed), never contains a Saturday or a
Sunday, and a range of exactly 7 consecutive days yields exactly 5
dates. -/
theorem dateRangeArray_spec (s e : Instant) (h : s.day ≤ e.day) :
    List.Sorted (· < ·) (dateRangeArray s e) ∧
    (∀ d : Nat, d ∈ dateRangeArray s e ↔
      s.day ≤ d ∧ d ≤ e.day ∧ isWeekendDay d = false) ∧
    (∀ d ∈ dateRangeArray s e, dayOfWeekNum d ≠ 0 ∧ dayOfWeekNum d ≠ 6) ∧
    (e.day = s.day + 6 → (dateRangeArray s e).length = 5) := by
  have hmem : ∀ d : Nat, d ∈ dateRangeArray s e ↔
      s.day ≤ d ∧ d ≤ e.day ∧ isWeekendDay d = false := by
    intro d
    simp only [dateRangeArray, eachDayOfInterval, List.mem_filter,
      List.mem_range'_1, Bool.not_eq_true']
    constructor
    · rintro ⟨⟨h1, h2⟩, h3⟩
      exact ⟨h1, by omega, h3⟩
    · rintro ⟨h1, h2, h3⟩
      exact ⟨⟨h1, by omega⟩, h3⟩
  refine ⟨(List.pairwise_lt_range' _ _).sublist (List.filter_sublist _),
    hmem, ?_, ?_⟩
  · intro d hd
    have h3 := ((hmem d).mp hd).2.2
    simp only [isWeekendDay, dayOfWeekNum, Bool.or_eq_false_iff,
      beq_eq_false_iff_ne, ne_eq] at h3
    exact ⟨h3.1, h3.2⟩
  · intro h6
    have h7 : e.day + 1 - s.day = 7 := by omega
    unfold dateRangeArray eachDayOfInterval
    rw [h7]
    exact weekCount s.day

/-- Witness for `dateRangeArray_spec`: the calendar week
2024-03-03 (Sunday) .. 2024-03-09 (Saturday) yields 5 workdays. -/
theorem dateRangeArray_spec_witness :
    (dateRangeArray (midnight (daysFromCivil 2024 3 3))
      (midnight (daysFromCivil 2024 3 9))).length = 5 :=
  (dateRangeArray_spec (midnight (daysFromCivil 2024 3 3))
    (midnight (daysFromCivil 2024 3 9)) (by decide)).2.2.2 (by decide)

/-- Claim C5: for any of the four fixed deltas and non-negative starting
balances, `handleVacationDayChange` leaves every balance non-negative
(the changed one is clamped with `Math.max(0, ·)`), and the `-1` /
`-0.5` buttons are disabled exactly when the balance is below 1 /
below 0.5. -/
theorem handleVacationDayChange_clamps (data : List MockEmployee)
    (employeeId : Nat) (change : ℚ)
    (hc : change ∈ ([1, 1/2, -(1/2), -1] : List ℚ))
    (hpos : ∀ emp ∈ data, 0 ≤ emp.remainingVacationDays) :
    (∀ emp ∈ handleVacationDayChange data employeeId change,
        0 ≤ emp.remainingVacationDays) ∧
    (∀ emp : MockEmployee,
        minusOneDisabled emp = true ↔ emp.remainingVacationDays < 1) ∧
    (∀ emp : MockEmployee,
        minusHalfDisabled emp = true ↔ emp.remainingVacationDays < 1 / 2) := by
  refine ⟨?_, ?_, ?_⟩
  · intro emp hmem
    simp only [handleVacationDayChange, List.mem_map] at hmem
    obtain ⟨a, ha, rfl⟩ := hmem
    by_cases hid : a.id = employeeId
    · simp only [hid, beq_self_eq_true, if_true]
      exact le_max_left _ _
    · simp only [beq_eq_false_iff_ne.mpr hid, Bool.false_eq_true, if_false]
      exact hpos a ha
  · intro emp
    simp [minusOneDisabled]
  · intro emp
    simp [minusHalfDisabled]

/-- Witness for `handleVacationDayChange_clamps`: a balance of 0.5
disables the `-1` button. -/
theorem handleVacationDayChange_clamps_witness :
    minusOneDisabled ⟨2, "Jane Smith", 1 / 2, 30000, []⟩ = true :=
  ((handleVacationDayChange_clamps [] 2 1 (by simp) (by simp)).2.1
      ⟨2, "Jane Smith", 1 / 2, 30000, []⟩).mpr (by norm_num)

/-- Zipping a list with its image under `f` pairs every element with its
image, positionally. -/
theorem zip_map_self {α : Type} (l : List α) (f : α → α) :
    l.zip (l.map f) = l.map (fun a => (a, f a)) := by
  induction l with
  | nil => rfl
  | cons x xs ih => simp [List.zip_cons_cons, ih]

/-- Zipping a list with itself pairs every element with itself. -/
theorem zip_self {α : Type} (l : List α) :
    l.zip l = l.map (fun a => (a, a)) := by
  induction l with
  | nil => rfl
  | cons x xs ih => simp [List.zip_cons_cons, ih]

/-- Claim C6: with an active edit session for employee `e`, date `d` and a
pending status, `saveEdit` closes the session and rewrites only the
`status` field of `e`'s records whose date equals `d`: positionally,
every other employee is untouched, every field of `e` other than
`attendance` is untouched, and within `attendance` every record keeps
its `date`, `checkInTime` and `comment`, records of other dates are
untouched, and the matching record's status becomes the session's
status.  (`e ≠ 0` reflects the JS truthiness guard; the synthetic
roster's ids are 1-3.) -/
theorem saveEdit_frame (st : PageState) (e d : Nat)
    (he : st.editEmployeeId = some e) (hd : st.editDate = some d)
    (hne : e ≠ 0) :
    (saveEdit st).editEmployeeId = none ∧
    (saveEdit st).editDate = none ∧
    (saveEdit st).attendanceData.length = st.attendanceData.length ∧
    ∀ p ∈ st.attendanceData.zip (saveEdit st).attendanceData,
      (p.1.id ≠ e → p.2 = p.1) ∧
      p.2.id = p.1.id ∧ p.2.name = p.1.name ∧
      p.2.remainingVacationDays = p.1.remainingVacationDays ∧
      p.2.accumulatedFine = p.1.accumulatedFine ∧
      p.2.attendance.length = p.1.attendance.length ∧
      ∀ q ∈ p.1.attendance.zip p.2.attendance,
        q.2.date = q.1.date ∧ q.2.checkInTime = q.1.checkInTime ∧
        q.2.comment = q.1.comment ∧
        (q.1.date ≠ d → q.2 = q.1) ∧
        (p.1.id = e → q.1.date = d → q.2.status = st.editStatus) := by
  have hs : saveEdit st = ⟨st.attendanceData.map (fun emp =>
      if emp.id == e then
        { emp with attendance := emp.attendance.map (fun a =>
            if a.date == d then { a with status := st.editStatus } else a) }
      else emp), none, none, .Present⟩ := by
    unfold saveEdit
    rw [he, hd]
    simp [hne]
  rw [hs]
  refine ⟨rfl, rfl, by simp, ?_⟩
  intro p hp
  rw [zip_map_self] at hp
  obtain ⟨a, ha, rfl⟩ := List.mem_map.mp hp
  dsimp only
  refine ⟨?_, ?_, ?_, ?_, ?_, ?_, ?_⟩
  · intro hne'
    simp [beq_eq_false_iff_ne.mpr hne']
  · by_cases hae : a.id = e <;> simp [hae]
  · by_cases hae : a.id = e <;> simp [hae]
  · by_cases hae : a.id = e <;> simp [hae]
  · by_cases hae : a.id = e <;> simp [hae]
  · by_cases hae : a.id = e <;> simp [hae]
  · by_cases hae : a.id = e
    · simp only [hae, beq_self_eq_true, if_true]
      intro q hq
      rw [zip_map_self] at hq
      obtain ⟨r, hr, rfl⟩ := List.mem_map.mp hq
      dsimp only
      refine ⟨?_, ?_, ?_, ?_, ?_⟩
      · by_cases hrd : r.date = d <;> simp [hrd]
      · by_cases hrd : r.date = d <;> simp [hrd]
      · by_cases hrd : r.date = d <;> simp [hrd]
      · intro hrd
        simp [beq_eq_false_iff_ne.mpr hrd]
      · intro _ hrd
        simp [hrd]
    · simp only [beq_eq_false_iff_ne.mpr hae, Bool.false_eq_true, if_false]
      intro q hq
      rw [zip_self] at hq
      obtain ⟨r, hr, rfl⟩ := List.mem_map.mp hq
      exact ⟨rfl, rfl, rfl, fun _ => rfl, fun habs _ => absurd habs hae⟩

/-- Witness for `saveEdit_frame`: a one-employee state with an active
session commits and closes the session. -/
theorem saveEdit_frame_witness :
    (saveEdit ⟨[⟨1, "John Doe", 3, 50000,
        [⟨100, .Present, some "09:40", none⟩, ⟨101, .Absent, none, none⟩]⟩],
      some 1, some 100, .Vacation⟩).editEmployeeId = none ∧
    (saveEdit ⟨[⟨1, "John Doe", 3, 50000,
        [⟨100, .Present, some "09:40", none⟩, ⟨101, .Absent, none, none⟩]⟩],
      some 1, some 100, .Vacation⟩).editDate = none :=
  ⟨(saveEdit_frame _ 1 100 rfl rfl (by decide)).1,
   (saveEdit_frame _ 1 100 rfl rfl (by decide)).2.1⟩

/-- Claim C7: with an active remote edit session, `saveEdit` issues exactly
one PUT to `/api/attendance` whose body is the JSON serialization of the
full edit (employee id, date, status, comment, time); on a successful
response it reloads the attendance data and resets the session, on a
failed one it alerts and changes nothing.  The scenario body for
(employee 2, 2024-03-05, official leave, comment "medical", empty time)
is the exact string of the spec. -/
theorem saveEditRemote_spec (st : RemoteEditState) (e : Nat) (d : String)
    (ok : Bool) (he : st.editEmployeeId = some e) (hd : st.editDate = some d)
    (hne : e ≠ 0) (hdne : d ≠ "") :
    (saveEditRemote st ok).requests =
      [⟨"PUT", "/api/attendance",
        serializeEditBody e d st.editStatus st.editComment st.editTime⟩] ∧
    (ok = true →
      (saveEditRemote st ok).reloaded = true ∧
      (saveEditRemote st ok).newState = ⟨none, none, .PRESENT, "", ""⟩ ∧
      (saveEditRemote st ok).alerted = false) ∧
    (ok = false →
      (saveEditRemote st ok).newState = st ∧
      (saveEditRemote st ok).reloaded = false ∧
      (saveEditRemote st ok).alerted = true) ∧
    serializeEditBody 2 "2024-03-05" .OFFICIAL_LEAVE "medical" "" =
      "\x7b\"userId\":2,\"attendanceDate\":\"2024-03-05\",\"status\":\"OFFICIAL_LEAVE\",\"comment\":\"medical\",\"time\":\"\"\x7d" := by
  have hguard : (e == 0 || d == "") = false := by
    simp [hne, hdne]
  have hs : saveEditRemote st ok =
      (if ok then
        ⟨[⟨"PUT", "/api/attendance",
            serializeEditBody e d st.editStatus st.editComment st.editTime⟩],
          ⟨none, none, .PRESENT, "", ""⟩, true, false⟩
       else
        ⟨[⟨"PUT", "/api/attendance",
            serializeEditBody e d st.editStatus st.editComment st.editTime⟩],
          st, false, true⟩) := by
    unfold saveEditRemote
    rw [he, hd]
    dsimp only
    rw [hguard]
    rfl
  rw [hs]
  cases ok <;> exact ⟨by simp, by simp, by simp, by decide⟩

/-- Witness for `saveEditRemote_spec` at the spec's scenario inputs. -/
theorem saveEditRemote_spec_witness :
    (saveEditRemote ⟨some 2, some "2024-03-05", .OFFICIAL_LEAVE, "", "medical"⟩
        true).requests =
      [⟨"PUT", "/api/attendance",
        "\x7b\"userId\":2,\"attendanceDate\":\"2024-03-05\",\"status\":\"OFFICIAL_LEAVE\",\"comment\":\"medical\",\"time\":\"\"\x7d"⟩] :=
  (saveEditRemote_spec ⟨some 2, some "2024-03-05", .OFFICIAL_LEAVE, "", "medical"⟩
    2 "2024-03-05" true rfl rfl (by decide) (by decide)).1

/-- Claim C9: every PUT forwards the request body verbatim upstream in a
single request; a thrown upstream fetch or an upstream status outside
200-299 — 4xx and 5xx alike — yields status 500 with the fixed error
body, and the response is identical whatever the failing status was;
an ok upstream response is relayed with status 200, as its body when
the content type says JSON and wrapped as `{ message: text }`
otherwise. -/
theorem handler_put_spec (reqBody apiBaseUrl : String) (up : UpstreamBehavior) :
    (handler "PUT" reqBody apiBaseUrl up).2 =
      [⟨"PUT", apiBaseUrl ++ "/attendance", reqBody⟩] ∧
    (up = .throws →
      (handler "PUT" reqBody apiBaseUrl up).1 = ⟨500, none, jsonErrorBody⟩) ∧
    (∀ status ct body, ¬(200 ≤ status ∧ status ≤ 299) →
      handler "PUT" reqBody apiBaseUrl (.responds status ct body) =
        (⟨500, none, jsonErrorBody⟩,
         [⟨"PUT", apiBaseUrl ++ "/attendance", reqBody⟩])) ∧
    (∀ status ct body, 200 ≤ status → status ≤ 299 →
      (handler "PUT" reqBody apiBaseUrl (.responds status ct body)).1.status = 200 ∧
      (handler "PUT" reqBody apiBaseUrl (.responds status ct body)).1.body =
        (if contentTypeIsJson ct then body
         else "\x7b\"message\":" ++ jsonStr body ++ "\x7d")) ∧
    (∀ s₁ s₂ ct₁ ct₂ b₁ b₂, ¬(200 ≤ s₁ ∧ s₁ ≤ 299) → ¬(200 ≤ s₂ ∧ s₂ ≤ 299) →
      handler "PUT" reqBody apiBaseUrl (.responds s₁ ct₁ b₁) =
        handler "PUT" reqBody apiBaseUrl (.responds s₂ ct₂ b₂)) := by
  refine ⟨?_, ?_, ?_, ?_, ?_⟩
  · cases up with
    | throws => rfl
    | responds status ct body =>
      have hput : (("PUT" : String) == "PUT") = true := by decide
      simp only [handler, hput, if_true]
      split_ifs <;> rfl
  · intro h
    subst h
    rfl
  · intro status ct body h
    simp [handler, h]
  · intro status ct body h1 h2
    simp only [handler]
    have hok : (200 ≤ status && status ≤ 299) = true := by
      simp [h1, h2]
    rw [hok]
    cases hct : contentTypeIsJson ct <;> simp [hct]
  · intro s₁ s₂ ct₁ ct₂ b₁ b₂ h1 h2
    simp [handler, h1, h2]

/-- Witness for `handler_put_spec`: an upstream 404 maps to a 500 with
the fixed error body. -/
theorem handler_put_spec_witness :
    handler "PUT" "body" "http://upstream" (.responds 404 none "nope") =
      (⟨500, none, jsonErrorBody⟩,
       [⟨"PUT", "http://upstream/attendance", "body"⟩]) :=
  (handler_put_spec "body" "http://upstream" (.responds 404 none "nope")).2.2.1
    404 none "nope" (by decide)

/-- Folding `Object.assign` singletons over fresh keys just appends the
key/value pairs in order. -/
theorem foldl_assignEntry (f : Nat → List RemoteRecord) (l : List Nat) :
    ∀ acc, l.Nodup → (∀ x ∈ l, acc.any (fun p => p.1 == x) = false) →
      l.foldl (fun acc e => assignEntry acc e (f e)) acc =
        acc ++ l.map (fun e => (e, f e)) := by
  induction l with
  | nil =>
    intro acc _ _
    simp
  | cons x xs ih =>
    intro acc hnd hdisj
    obtain ⟨hx_notmem, hnd'⟩ := List.nodup_cons.mp hnd
    rw [List.foldl_cons]
    have hx : acc.any (fun p => p.1 == x) = false :=
      hdisj x (List.mem_cons_self x xs)
    have ha : assignEntry acc x (f x) = acc ++ [(x, f x)] := by
      simp only [assignEntry, hx, Bool.false_eq_true, if_false]
    rw [ha, ih (acc ++ [(x, f x)]) hnd' ?_]
    · simp
    · intro y hy
      have hxy : (x == y) = false := by
        have : x ≠ y := fun hcontr => hx_notmem (hcontr ▸ hy)
        simp [this]
      have hy' : acc.any (fun p => p.1 == y) = false :=
        hdisj y (List.mem_cons_of_mem _ hy)
      simp [List.any_append, hy', hxy]

/-- Claim C2, counterexample.  Employees 1 and 2, where the fetch for 1
fails and the fetch for 2 succeeds with one record, starting from an
empty mapping: `Promise.all` rejects as a whole, so the result is the
untouched previous mapping — employee 2's successfully fetched records
are *not* present, contradicting the claim that every other employee's
records survive. -/
theorem fetchAttendanceDataRemote_counterexample :
    fetchAttendanceDataRemote [1, 2]
      (fun e => if e == 2 then some [⟨"2024-03-05", .PRESENT, some "09:00", none⟩]
        else none) [] = [] ∧
    (fun e => if e == 2 then some [⟨"2024-03-05", .PRESENT, some "09:00", none⟩]
        else none : Nat → Option (List RemoteRecord)) 2 =
      some [⟨"2024-03-05", .PRESENT, some "09:00", none⟩] ∧
    lookupRecords (fetchAttendanceDataRemote [1, 2]
      (fun e => if e == 2 then some [⟨"2024-03-05", .PRESENT, some "09:00", none⟩]
        else none) []) 2 = none := by
  decide

/-- Claim C2, amended: if any per-employee fetch fails, the whole
`Promise.all` rejects and the merged mapping keeps its previous value —
no employee's newly fetched records are stored; only when every fetch
succeeds is the mapping replaced by exactly the per-employee results,
in roster order. -/
theorem fetchAttendanceDataRemote_spec (employees : List Nat)
    (fetch : Nat → Option (List RemoteRecord))
    (prev : List (Nat × List RemoteRecord)) (hnd : employees.Nodup) :
    ((∃ e ∈ employees, fetch e = none) →
      fetchAttendanceDataRemote employees fetch prev = prev) ∧
    ((∀ e ∈ employees, (fetch e).isSome) →
      fetchAttendanceDataRemote employees fetch prev =
        employees.map (fun e => (e, (fetch e).getD []))) := by
  constructor
  · rintro ⟨e, he, hfe⟩
    have hall : employees.all (fun e => (fetch e).isSome) = false := by
      rw [← Bool.not_eq_true, List.all_eq_true]
      push_neg
      exact ⟨e, he, by simp [hfe]⟩
    simp only [fetchAttendanceDataRemote, hall, Bool.false_eq_true, if_false]
  · intro hall
    have hall' : employees.all (fun e => (fetch e).isSome) = true := by
      rw [List.all_eq_true]
      exact hall
    simp only [fetchAttendanceDataRemote, hall', if_true]
    exact foldl_assignEntry _ employees [] hnd (by simp)

/-- Witness for `fetchAttendanceDataRemote_spec`: two successful fetches
replace the mapping with both record lists. -/
theorem fetchAttendanceDataRemote_spec_witness :
    fetchAttendanceDataRemote [1, 2]
      (fun e => if e == 1 then some [⟨"2024-03-04", .LATE, some "10:15", none⟩]
        else some []) [] =
      [1, 2].map (fun e =>
        (e, ((fun e => if e == 1 then
              some [⟨"2024-03-04", .LATE, some "10:15", none⟩]
            else some [] : Nat → Option (List RemoteRecord)) e).getD [])) :=
  (fetchAttendanceDataRemote_spec [1, 2]
    (fun e => if e == 1 then some [⟨"2024-03-04", .LATE, some "10:15", none⟩]
      else some []) [] (by decide)).2 (by decide)

end NFCTag
